import Mathlib

/-!
Verification of the ModelDocs scraper toolkit.

This file shallowly embeds the extraction, validation, URL-resolution and
rendering logic of `src/scraper_toolkit.py` (class `BaseScraper` and its
subclasses) and `src/aiml_advanced_scraper_mobile.py` (class
`AIMLScraperMobile`) into Lean, and proves properties of the embedded
definitions.

Conventions of the embedding:
* Python strings are Lean `String`s (a list of characters); `len` is the
  character count.
* Python string operations (`strip`, `lower`, `find`, slicing, substring
  membership) are embedded as the `py*` functions below.  Python's `strip`
  and `lower` act on all of Unicode; the embedding covers the ASCII range,
  which is what every string constant in the sources uses.
* Python `dict`s are embedded as insertion-ordered association lists, and
  `list(set(xs))` as first-occurrence deduplication (`dedupFirst`): Python's
  set iteration order is unspecified, and no property proved here depends
  on the order chosen, only on membership and cardinality.
* The concrete regular expressions of the sources are embedded as
  deterministic scanners; each scanner documents the pattern it implements.
-/

/-! ## Python string primitives -/

/-- Whitespace characters recognised by Python's `str.strip()` and `\s`
(ASCII range: space, tab, newline, carriage return, vertical tab, form feed). -/
def pyIsSpace (c : Char) : Bool :=
  c = ' ' || c = '\t' || c = '\n' || c = '\r' || c = Char.ofNat 11 || c = Char.ofNat 12

/-- Python `str.strip()` on a character list. -/
def pyStripList (l : List Char) : List Char :=
  ((l.dropWhile pyIsSpace).reverse.dropWhile pyIsSpace).reverse

/-- Python `str.strip()`. -/
def pyStrip (s : String) : String := ⟨pyStripList s.data⟩

/-- Python `str.lower()` on one character (ASCII range). -/
def pyLowerChar (c : Char) : Char :=
  if 'A' ≤ c && c ≤ 'Z' then Char.ofNat (c.toNat + 32) else c

/-- Python `str.lower()`. -/
def pyLower (s : String) : String := ⟨s.data.map pyLowerChar⟩

/-- Does the pattern (first argument) occur at the head of the list? -/
def startsWithCS : List Char → List Char → Bool
  | [], _ => true
  | _ :: _, [] => false
  | p :: ps, c :: cs => p = c && startsWithCS ps cs

/-- First index at or after `i` where `pat` occurs in `l`, if any. -/
def findSubFrom (pat : List Char) : List Char → Nat → Option Nat
  | [], i => if pat = [] then some i else none
  | l@(_ :: t), i => if startsWithCS pat l then some i else findSubFrom pat t (i + 1)

/-- Python `text.find(sub)`: index of the first occurrence of `pat` in `s`
(`none` embeds Python's `-1`). -/
def strFind (s pat : String) : Option Nat := findSubFrom pat.data s.data 0

/-- Python `sub in s` (substring containment). -/
def hasSubstr (pat s : String) : Bool := (findSubFrom pat.data s.data 0).isSome

/-- Python slicing `s[a:b]` for non-negative bounds. -/
def pySlice (s : String) (a b : Nat) : String := ⟨(s.data.drop a).take (b - a)⟩

/-- Auxiliary for `dedupFirst`: drop elements already in `seen`, keep the
first occurrence of each new element. -/
def dedupFirstAux : List String → List String → List String
  | _, [] => []
  | seen, a :: l =>
    if a ∈ seen then dedupFirstAux seen l else a :: dedupFirstAux (seen ++ [a]) l

/-- Embedding of Python `list(set(xs))`: one representative per distinct
element (first occurrence kept; Python's choice of order among duplicates
is unspecified, and nothing proved here depends on it). -/
def dedupFirst (l : List String) : List String := dedupFirstAux [] l

/-! ## Validator (`BaseScraper.validate_content`, src/scraper_toolkit.py:254-259)

`ScraperConfig.min_content_length` is `100` (src/scraper_toolkit.py:88). -/

/-- `ScraperConfig.min_content_length`. -/
def min_content_length : Nat := 100

/-- `BaseScraper.validate_content`: `len(content.strip()) > self.config.min_content_length`. -/
def validate_content (content : String) : Bool :=
  (pyStrip content).length > min_content_length

/-! ## URL resolver (`AIMLScraperMobile.find_model_url`, src/aiml_advanced_scraper_mobile.py:86-120) -/

/-- The ordered `provider_map` table of `find_model_url`
(src/aiml_advanced_scraper_mobile.py:91-105); Python dict iteration order
is insertion order. -/
def provider_map : List (String × String) :=
  [("gpt-", "openai"), ("o1", "openai"), ("o3", "openai"), ("o4", "openai"),
   ("claude-", "anthropic"), ("deepseek-", "deepseek"), ("gemini-", "google"),
   ("mistral-", "mistral-ai"), ("llama-", "meta"), ("qwen-", "alibaba-cloud"),
   ("moonshot-", "moonshot"), ("command-", "cohere"), ("grok-", "xai")]

/-- `AIMLScraperMobile.base_url`. -/
def mobile_base_url : String := "https://docs.aimlapi.com"

/-- Outcome of `find_model_url`: either the constructed URL, or the failure
(`return None` after printing the supported prefixes); the failure carries
the prefix list the code reports. -/
inductive ResolveResult where
  | ok (url : String)
  | unknownProviderForModel (supportedPrefixes : List String)
deriving DecidableEq, Repr

/-- Is the resolution a failure? -/
def ResolveResult.isUnknown : ResolveResult → Bool
  | .ok _ => false
  | .unknownProviderForModel _ => true

/-- `AIMLScraperMobile.find_model_url`: scan `provider_map` in order for the
first `prefix` with `model_name.lower().startswith(prefix)`; on a match,
build `f"{base_url}/api-references/text-models-llm/{provider}/{model_name}"`,
otherwise fail reporting `provider_map.keys()`. -/
def find_model_url (model_name : String) : ResolveResult :=
  match provider_map.find? (fun pr => startsWithCS pr.1.data (pyLower model_name).data) with
  | some pr =>
    .ok (mobile_base_url ++ "/api-references/text-models-llm/" ++ pr.2 ++ "/" ++ model_name)
  | none => .unknownProviderForModel (provider_map.map (·.1))

/-- Spec-side resolver table scan, written after the spec's words: "scan a
fixed ordered table of (prefix → sub-provider) pairs and select the first
case-insensitive prefix match". -/
def scanTable : List (String × String) → String → Option String
  | [], _ => none
  | (pfx, prov) :: rest, nameLower =>
    if startsWithCS pfx.data nameLower.data then some prov else scanTable rest nameLower

/-- Spec-side resolver, written after the spec's words: first matching
prefix selects the sub-provider and the URL template; no match fails with
`UnknownProviderForModel` carrying the supported prefixes. -/
def resolveSpec (model_name : String) : ResolveResult :=
  match scanTable provider_map (pyLower model_name) with
  | some prov =>
    .ok (mobile_base_url ++ "/api-references/text-models-llm/" ++ prov ++ "/" ++ model_name)
  | none => .unknownProviderForModel (provider_map.map (·.1))

/-! ## Regular-expression scanners

Each scanner embeds one concrete regular expression of the sources as a
deterministic matcher plus the `re.findall` left-to-right non-overlapping
scan.  The patterns are simple enough that greedy matching with ordered
alternation (Python's strategy) is deterministic: the character classes of
adjacent optional pieces are disjoint, so no backtracking into quantifiers
can occur; alternation is tried in written order with fallback. -/

/-- Class `[:=]`. -/
def isColonEq (c : Char) : Bool := c = ':' || c = '='

/-- Class `["\']` (double or single quote). -/
def isQuote (c : Char) : Bool := c = Char.ofNat 34 || c = Char.ofNat 39

def isAsciiLowerCh (c : Char) : Bool := 'a' ≤ c && c ≤ 'z'

def isAsciiUpperCh (c : Char) : Bool := 'A' ≤ c && c ≤ 'Z'

def isDigitCh (c : Char) : Bool := '0' ≤ c && c ≤ '9'

/-- Class `[a-z0-9\-\.]` under `re.IGNORECASE` (so upper-case letters too). -/
def isModelIdChar (c : Char) : Bool :=
  isAsciiLowerCh c || isAsciiUpperCh c || isDigitCh c || c = '-' || c = '.'

/-- Class `[a-z_]` under `re.IGNORECASE` (so upper-case letters too). -/
def isIdentChar (c : Char) : Bool := isAsciiLowerCh c || isAsciiUpperCh c || c = '_'

/-- Class `[a-z/\-]` (case-sensitive, used by the endpoint pattern). -/
def isEndpointChar (c : Char) : Bool := isAsciiLowerCh c || c = '/' || c = '-'

/-- Consume a literal (given lower-case) case-insensitively. -/
def dropLitCI : List Char → List Char → Option (List Char)
  | [], l => some l
  | _ :: _, [] => none
  | p :: ps, c :: cs => if pyLowerChar c = p then dropLitCI ps cs else none

/-- Consume a literal case-sensitively. -/
def dropLitCS : List Char → List Char → Option (List Char)
  | [], l => some l
  | _ :: _, [] => none
  | p :: ps, c :: cs => if c = p then dropLitCS ps cs else none

/-- Consume an optional single character of the class `p` (`X?`). -/
def dropOpt (p : Char → Bool) : List Char → List Char
  | [] => []
  | l@(c :: cs) => if p c then cs else l

/-- Consume `\s*`. -/
def dropWs (l : List Char) : List Char := l.dropWhile pyIsSpace

/-- Consume one mandatory character of the class `p`. -/
def dropOne (p : Char → Bool) : List Char → Option (List Char)
  | [] => none
  | c :: cs => if p c then some cs else none

/-- Consume `p+` greedily (at least one character), returning the capture. -/
def takeWhile1 (p : Char → Bool) (l : List Char) : Option (List Char × List Char) :=
  match l.takeWhile p with
  | [] => none
  | cap => some (cap, l.drop cap.length)

/-- Try `dropLitCI` for each alternative in order (ordered alternation of
literal keywords in tail position, as Python tries them). -/
def dropAnyLitCI : List String → List Char → Option (List Char)
  | [], _ => none
  | kw :: kws, l => dropLitCI kw.data l <|> dropAnyLitCI kws l

/-- Matcher for `(?:model["\']?\s*[:=]\s*["\']?)([a-z0-9\-\.]+)(?:["\'])?`
with `re.IGNORECASE` (src/aiml_advanced_scraper_mobile.py:200): returns the
captured identifier and the remaining input. -/
def matchModelId (l : List Char) : Option (String × List Char) := do
  let l ← dropLitCI "model".data l
  let l := dropOpt isQuote l
  let l := dropWs l
  let l ← dropOne isColonEq l
  let l := dropWs l
  let l := dropOpt isQuote l
  let (cap, l) ← takeWhile1 isModelIdChar l
  let l := dropOpt isQuote l
  return (⟨cap⟩, l)

/-- Matcher for `https://api\.aimlapi\.com/v1/[a-z/\-]+`
(src/aiml_advanced_scraper_mobile.py:195); with no capture group,
`re.findall` returns the whole match. -/
def matchEndpoint (l : List Char) : Option (String × List Char) := do
  let rest ← dropLitCS "https://api.aimlapi.com/v1/".data l
  let (cap, rest) ← takeWhile1 isEndpointChar rest
  return (⟨"https://api.aimlapi.com/v1/".data ++ cap⟩, rest)

/-- Tail of parameter pattern 1 after the keyword:
`["\']?\s*[:=]?\s*["\']?([a-z_]+)`. -/
def matchParam1Rest (l : List Char) : Option (String × List Char) := do
  let l := dropOpt isQuote l
  let l := dropWs l
  let l := dropOpt isColonEq l
  let l := dropWs l
  let l := dropOpt isQuote l
  let (cap, l) ← takeWhile1 isIdentChar l
  return (⟨cap⟩, l)

/-- Matcher for parameter pattern 1,
`(?:parameter|param|field)["\']?\s*[:=]?\s*["\']?([a-z_]+)` with
`re.IGNORECASE` (src/aiml_advanced_scraper_mobile.py:134); the keyword
alternatives are tried in order, falling back when the tail fails. -/
def matchParam1 (l : List Char) : Option (String × List Char) :=
  ((dropLitCI "parameter".data l).bind matchParam1Rest) <|>
  ((dropLitCI "param".data l).bind matchParam1Rest) <|>
  ((dropLitCI "field".data l).bind matchParam1Rest)

/-- Type keywords of parameter pattern 2, in the pattern's order. -/
def typeKeywords : List String :=
  ["string", "integer", "number", "boolean", "array", "object"]

/-- Matcher for parameter pattern 2,
`<strong>([a-z_]+)</strong>\s*(?:string|integer|number|boolean|array|object)`
with `re.IGNORECASE` (src/aiml_advanced_scraper_mobile.py:135). -/
def matchParam2 (l : List Char) : Option (String × List Char) := do
  let l ← dropLitCI "<strong>".data l
  let (cap, l) ← takeWhile1 isIdentChar l
  let l ← dropLitCI "</strong>".data l
  let l := dropWs l
  let l ← dropAnyLitCI typeKeywords l
  return (⟨cap⟩, l)

/-- Matcher for parameter pattern 3, backtick `([a-z_]+)` backtick followed
by `\s*(?:\||:|-)`, with `re.IGNORECASE`
(src/aiml_advanced_scraper_mobile.py:136). -/
def matchParam3 (l : List Char) : Option (String × List Char) := do
  let l ← dropOne (· = Char.ofNat 96) l
  let (cap, l) ← takeWhile1 isIdentChar l
  let l ← dropOne (· = Char.ofNat 96) l
  let l := dropWs l
  let l ← dropOne (fun c => c = '|' || c = ':' || c = '-') l
  return (⟨cap⟩, l)

/-- The `re.findall` scan: at each position try the matcher; on success emit
the capture and resume after the match, else advance one character.  The
fuel argument is an upper bound on the number of steps (every step consumes
at least one character). -/
def findallAux (m : List Char → Option (String × List Char)) : Nat → List Char → List String
  | 0, _ => []
  | _ + 1, [] => []
  | fuel + 1, l@(_ :: t) =>
    match m l with
    | some (cap, rest) => cap :: findallAux m fuel rest
    | none => findallAux m fuel t

/-- `re.findall(pattern, s)` for the matcher `m`. -/
def pyFindall (m : List Char → Option (String × List Char)) (s : String) : List String :=
  findallAux m (s.data.length + 1) s.data

/-! ## HTML document model

The sources parse HTML with the external library BeautifulSoup
(`html.parser` backend), which is lenient and total: every input string
parses to some element tree, malformed fragments included.  The library is
not part of this repository; it is modelled here by an element-tree type,
the tree operations the sources use (`get_text`, `find_all`, attribute
access, `select_one` for the bare tag-name selectors the sources pass), and
a total lenient parser `parseHtml`.  The extraction properties proved below
hold for every tree, so they do not depend on the details of this parser
model.  The tree is stored in first-child / next-sibling form so that
every traversal is structurally recursive. -/

/-- A forest of HTML nodes in document order: a text node followed by its
siblings, or an element (tag, attributes, children) followed by its
siblings. -/
inductive Html where
  | nil
  | text (s : String) (rest : Html)
  | elem (tag : String) (attrs : List (String × String)) (children : Html) (rest : Html)
deriving DecidableEq, Repr

/-- One element node, as delivered by `find_all`. -/
structure Elem where
  tag : String
  attrs : List (String × String)
  children : Html
deriving DecidableEq, Repr

/-- `element.get_text()` over a forest: concatenation of all text content
in document order. -/
def Html.getText : Html → String
  | .nil => ""
  | .text s rest => s ++ rest.getText
  | .elem _ _ children rest => children.getText ++ rest.getText

/-- `element.get_text()` on one element. -/
def Elem.getText (e : Elem) : String := e.children.getText

/-- `find_all` over a forest: every element satisfying `p`, in document
(pre-)order, descendants included. -/
def Html.findAll (p : Elem → Bool) : Html → List Elem
  | .nil => []
  | .text _ rest => rest.findAll p
  | .elem t a children rest =>
    (if p ⟨t, a, children⟩ then [⟨t, a, children⟩] else []) ++
      children.findAll p ++ rest.findAll p

/-- Attribute lookup (`element.attrs` / `element.get`). -/
def attrsGet (attrs : List (String × String)) (k : String) : Option String :=
  (attrs.find? (fun pr => pr.1 == k)).map (·.2)

/-- Python `str.split()` (split on whitespace runs, no empty items), used by
BeautifulSoup to make the `class` attribute multi-valued. -/
def pySplitWsAux : Nat → List Char → List String
  | 0, _ => []
  | fuel + 1, l =>
    match l.dropWhile pyIsSpace with
    | [] => []
    | l' =>
      let w := l'.takeWhile (fun c => ! pyIsSpace c)
      ⟨w⟩ :: pySplitWsAux fuel (l'.drop w.length)

def pySplitWs (s : String) : List String := pySplitWsAux (s.data.length + 1) s.data

/-- `element.get('class', [])`: BeautifulSoup splits the `class` attribute
on whitespace into a token list; a missing attribute yields `[]`. -/
def elemClassList (e : Elem) : List String :=
  match attrsGet e.attrs "class" with
  | some v => pySplitWs v
  | none => []

/-! ### Lenient parser model -/

def isTagNameChar (c : Char) : Bool :=
  isAsciiLowerCh c || isAsciiUpperCh c || isDigitCh c || c = '-'

def isAttrNameChar (c : Char) : Bool :=
  isAsciiLowerCh c || isAsciiUpperCh c || isDigitCh c || c = '-' || c = '_'

inductive HtmlTok where
  | openTag (tag : String) (attrs : List (String × String)) (selfClosing : Bool)
  | closeTag (tag : String)
  | textTok (s : String)

/-- Lower-case a character list (tag and attribute names are lower-cased by
`html.parser`). -/
def lowerList (l : List Char) : List Char := l.map pyLowerChar

/-- Lex the attribute section of an open tag up to `>`: returns the
attributes, whether the tag was self-closing, and the rest of the input. -/
def lexAttrs : Nat → List Char → (List (String × String) × Bool × List Char)
  | 0, l => ([], false, l)
  | fuel + 1, l =>
    match l.dropWhile pyIsSpace with
    | [] => ([], false, [])
    | '>' :: rest => ([], false, rest)
    | '/' :: rest =>
      (match rest.dropWhile pyIsSpace with
       | '>' :: r2 => ([], true, r2)
       | _ => lexAttrs fuel rest)
    | l'@(c :: rest) =>
      if ! isAttrNameChar c then lexAttrs fuel rest
      else
        let name : List Char := l'.takeWhile isAttrNameChar
        let l1 := (l'.drop name.length).dropWhile pyIsSpace
        match l1 with
        | '=' :: l2 =>
          let l3 := l2.dropWhile pyIsSpace
          (match l3 with
           | q :: l4 =>
             if isQuote q then
               let v := l4.takeWhile (· ≠ q)
               let (attrs, sc, r) := lexAttrs fuel ((l4.drop v.length).drop 1)
               ((⟨lowerList name⟩, ⟨v⟩) :: attrs, sc, r)
             else
               let v := l3.takeWhile (fun ch => ! pyIsSpace ch && ch ≠ '>')
               let (attrs, sc, r) := lexAttrs fuel (l3.drop v.length)
               ((⟨lowerList name⟩, ⟨v⟩) :: attrs, sc, r)
           | [] => ([(⟨lowerList name⟩, "")], false, []))
        | _ =>
          let (attrs, sc, r) := lexAttrs fuel l1
          ((⟨lowerList name⟩, "") :: attrs, sc, r)

/-- Tokenize an HTML string (lenient: anything that is not a recognisable
tag is text; comments and declarations are skipped). -/
def lexHtml : Nat → List Char → List HtmlTok
  | 0, _ => []
  | _ + 1, [] => []
  | fuel + 1, '<' :: rest =>
    match rest with
    | '/' :: r2 =>
      let name := r2.takeWhile isTagNameChar
      let r3 := ((r2.drop name.length).dropWhile (· ≠ '>')).drop 1
      .closeTag ⟨lowerList name⟩ :: lexHtml fuel r3
    | '!' :: r2 =>
      let r3 := (r2.dropWhile (· ≠ '>')).drop 1
      lexHtml fuel r3
    | c :: _ =>
      if isAsciiLowerCh c || isAsciiUpperCh c then
        let name := rest.takeWhile isTagNameChar
        let (attrs, sc, r3) := lexAttrs (rest.length + 1) (rest.drop name.length)
        .openTag ⟨lowerList name⟩ attrs sc :: lexHtml fuel r3
      else .textTok "<" :: lexHtml fuel rest
    | [] => [.textTok "<"]
  | fuel + 1, l =>
    let txt := l.takeWhile (· ≠ '<')
    .textTok ⟨txt⟩ :: lexHtml fuel (l.drop txt.length)

/-- Build a node forest from a token list: an open tag collects children
until its matching close tag; stray close tags are ignored; unclosed tags
are closed at end of input.  Returns the forest and the unconsumed rest. -/
def buildNodes : Nat → Option String → List HtmlTok → (Html × List HtmlTok)
  | 0, _, toks => (.nil, toks)
  | _ + 1, _, [] => (.nil, [])
  | fuel + 1, parent, .textTok s :: rest =>
    let (ns, r) := buildNodes fuel parent rest
    (.text s ns, r)
  | fuel + 1, parent, .closeTag n :: rest =>
    if parent = some n then (.nil, rest)
    else buildNodes fuel parent rest
  | fuel + 1, parent, .openTag n attrs sc :: rest =>
    if sc then
      let (ns, r) := buildNodes fuel parent rest
      (.elem n attrs .nil ns, r)
    else
      let (kids, r1) := buildNodes fuel (some n) rest
      let (ns, r2) := buildNodes fuel parent r1
      (.elem n attrs kids ns, r2)

/-- Total lenient parse of an HTML string into a node forest (model of the
external `BeautifulSoup(html, 'html.parser')` dependency, which never
raises). -/
def parseHtml (html : String) : Html :=
  let toks := lexHtml (html.data.length + 1) html.data
  (buildNodes (toks.length + 1) none toks).1

/-! ## Mobile extractor (`AIMLScraperMobile`, src/aiml_advanced_scraper_mobile.py) -/

/-- Result record of `extract_api_parameters`; `descriptions` is initialised
empty and never filled by the source. -/
structure ApiParameters where
  required : List String
  optional : List String
  descriptions : List (String × String)
deriving Repr, DecidableEq

/-- The classification window of `extract_api_parameters`
(src/aiml_advanced_scraper_mobile.py:147):
`text[max(0, text.find(param_name)-100):text.find(param_name)+100]`.
When `text.find` returns `-1` (the lowered name has no case-sensitive
occurrence), Python computes `text[max(0,-101):99]`, i.e. the first 99
characters. -/
def classifyWindow (text name : String) : String :=
  match strFind text name with
  | some i => pySlice text (i - 100) (i + 100)
  | none => pySlice text 0 99

/-- The classification test: `'required' in window.lower()`. -/
def requiredNear (text name : String) : Bool :=
  hasSubstr "required" (pyLower (classifyWindow text name))

/-- Classification of one already-lowered identifier by the loop body of
`extract_api_parameters` (src/aiml_advanced_scraper_mobile.py:145-150): an
identifier already present in either list is left alone, otherwise it is
appended to `required` or `optional` according to `requiredNear`. -/
def classifyStep (text : String) (ps : ApiParameters) (param_name : String) : ApiParameters :=
  if param_name ∈ ps.required ∨ param_name ∈ ps.optional then ps
  else if requiredNear text param_name then
    { ps with required := ps.required ++ [param_name] }
  else
    { ps with optional := ps.optional ++ [param_name] }

/-- Loop body of `extract_api_parameters` for one regex match
(src/aiml_advanced_scraper_mobile.py:143-150): `param_name = match.lower()`
then the classification above. -/
def paramStep (text : String) (ps : ApiParameters) (m : String) : ApiParameters :=
  classifyStep text ps (pyLower m)

/-- The `re.findall` result of each of the three `param_patterns`, in
pattern order, over the flattened page text. -/
def paramPatternMatches (text : String) : List (List String) :=
  [pyFindall matchParam1 text, pyFindall matchParam2 text, pyFindall matchParam3 text]

/-- `AIMLScraperMobile.extract_api_parameters`
(src/aiml_advanced_scraper_mobile.py:122-152). -/
def extract_api_parameters (html : String) : ApiParameters :=
  let soup := parseHtml html
  let text := Html.getText soup
  (paramPatternMatches text).foldl (fun ps ms => ms.foldl (paramStep text) ps)
    { required := [], optional := [], descriptions := [] }

/-- The `if/elif` keyword classification of `extract_code_examples`
(src/aiml_advanced_scraper_mobile.py:166-173); `none` when no branch fires
(the block is then not stored). -/
def classifyExample (code_text : String) : Option String :=
  if hasSubstr "curl" (pyLower code_text) then some "curl"
  else if hasSubstr "python" (pyLower code_text) || hasSubstr "import" code_text then some "python"
  else if hasSubstr "javascript" (pyLower code_text) || hasSubstr "async" code_text then some "javascript"
  else if hasSubstr "bash" (pyLower code_text) then some "bash"
  else none

/-- Python `dict` assignment `d[k] = v` on an insertion-ordered association
list: update in place if the key exists, else append. -/
def dictSet (d : List (String × String)) (k v : String) : List (String × String) :=
  match d with
  | [] => [(k, v)]
  | (k', v') :: rest => if k' = k then (k, v) :: rest else (k', v') :: dictSet rest k v

/-- Python `d.get(k)` on the association list. -/
def dictGet : List (String × String) → String → Option String
  | [], _ => none
  | (k', v) :: rest, k => if k' = k then some v else dictGet rest k

/-- `AIMLScraperMobile.extract_code_examples`
(src/aiml_advanced_scraper_mobile.py:154-175): the `examples` dict keyed by
detected category; a later block in the same category overwrites the
earlier one. -/
def extract_code_examples (html : String) : List (String × String) :=
  let soup := parseHtml html
  let code_blocks := Html.findAll (fun e => e.tag == "code") soup
  code_blocks.foldl (fun examples code =>
    match classifyExample code.getText with
    | some k => dictSet examples k code.getText
    | none => examples) []

/-- Result record of `extract_model_info`. -/
structure ModelInfo where
  description : String
  capabilities : List String
  endpoints : List String
  model_ids : List String
deriving Repr, DecidableEq

/-- The `capability_keywords` list
(src/aiml_advanced_scraper_mobile.py:205-208). -/
def capability_keywords : List String :=
  ["streaming", "function calling", "vision", "audio", "json",
   "tool use", "reasoning", "search", "embeddings", "moderation"]

/-- `AIMLScraperMobile.extract_model_info`
(src/aiml_advanced_scraper_mobile.py:177-214). -/
def extract_model_info (html : String) : ModelInfo :=
  let soup := parseHtml html
  let text := Html.getText soup
  let paragraphs := Html.findAll (fun e => e.tag == "p") soup
  let description :=
    match paragraphs with
    | [] => ""
    | p :: _ => pyStrip p.getText
  let endpoints := dedupFirst (pyFindall matchEndpoint text)
  let model_ids := (dedupFirst (pyFindall matchModelId text)).take 15
  let capabilities :=
    capability_keywords.filter (fun kw => hasSubstr (pyLower kw) (pyLower text))
  { description := description, capabilities := capabilities,
    endpoints := endpoints, model_ids := model_ids }

/-! ## Toolkit extractor (`BaseScraper`, src/scraper_toolkit.py)

Each `BaseScraper.extract_*` method wraps its whole body in
`try/except` returning an empty result on an exception.  The plain
definitions below embed the bodies; the `*E` variants further down thread
Python's partial primitives through `Except` and are proved to always
return `ok`, so the `except` arms are unreachable. -/

structure CodeBlock where
  language : String
  code : String
deriving Repr, DecidableEq

structure PyTable where
  headers : List String
  rows : List (List String)
deriving Repr, DecidableEq

/-- Python `s.replace(old, '')`: remove every non-overlapping occurrence of
`pat`, scanning left to right. -/
def removeAllSubAux (pat : List Char) : Nat → List Char → List Char
  | 0, l => l
  | _ + 1, [] => []
  | fuel + 1, l@(c :: t) =>
    if pat ≠ [] && startsWithCS pat l then removeAllSubAux pat fuel (l.drop pat.length)
    else c :: removeAllSubAux pat fuel t

def removeAllSub (pat s : String) : String :=
  ⟨removeAllSubAux pat.data (s.data.length + 1) s.data⟩

/-- Language detection of `extract_code_blocks`
(src/scraper_toolkit.py:203-214): start from `'text'`; the first class
token containing the substring `'language-'` (if any) replaces it by the
token with every `'language-'` occurrence removed; then, if the language is
still `'text'` and a `data-language` attribute exists, its value is used. -/
def detectLanguage (e : Elem) : String :=
  let language := "text"
  let language :=
    match (elemClassList e).find? (fun cls => hasSubstr "language-" cls) with
    | some cls => removeAllSub "language-" cls
    | none => language
  if language = "text" then
    match attrsGet e.attrs "data-language" with
    | some v => v
    | none => language
  else language

/-- `BaseScraper.extract_code_blocks` (src/scraper_toolkit.py:196-226). -/
def extract_code_blocks (html : String) : List CodeBlock :=
  let soup := parseHtml html
  (Html.findAll (fun e => e.tag == "code" || e.tag == "pre") soup).foldl
    (fun code_blocks code_elem =>
      let language := detectLanguage code_elem
      let code_text := code_elem.getText
      if pyStrip code_text = "" then code_blocks
      else code_blocks ++ [{ language := language, code := pyStrip code_text }])
    []

/-- `BaseScraper.extract_tables` (src/scraper_toolkit.py:228-252): rows that
produce no cells (`if cells:`) are dropped; a table whose surviving row list
is empty (`if rows:`) is dropped; otherwise `rows[0]` is the header row and
`rows[1:]` the data rows. -/
def extract_tables (html : String) : List PyTable :=
  let soup := parseHtml html
  (Html.findAll (fun e => e.tag == "table") soup).foldl (fun tables table =>
    let rows := (Html.findAll (fun e => e.tag == "tr") table.children).foldl
      (fun rows tr =>
        let cells := (Html.findAll (fun e => e.tag == "td" || e.tag == "th")
            tr.children).map (fun td => pyStrip td.getText)
        if cells.isEmpty then rows else rows ++ [cells])
      []
    match rows with
    | [] => tables
    | h :: rest => tables ++ [{ headers := h, rows := rest }])
    []

/-- The header tag list of `extract_headers`. -/
def headerTags : List String := ["h1", "h2", "h3", "h4", "h5", "h6"]

/-- `int(header.name[1])` for the tags delivered by the `h1..h6` filter. -/
def headerLevel (tag : String) : Nat :=
  match tag.data with
  | _ :: c :: _ => c.toNat - 48
  | _ => 0

/-- `BaseScraper.extract_headers` (src/scraper_toolkit.py:179-194). -/
def extract_headers (html : String) : List (Nat × String) :=
  let soup := parseHtml html
  (Html.findAll (fun e => headerTags.contains e.tag) soup).foldl
    (fun headers header =>
      let level := headerLevel header.tag
      let text := pyStrip header.getText
      if text = "" then headers else headers ++ [(level, text)])
    []

/-- `soup.select_one(sel)` for the bare tag-name selectors the sources use
(`'main'`): the first matching element in document order. -/
def selectOne (sel : String) (doc : Html) : Option Elem :=
  (Html.findAll (fun e => e.tag == sel) doc).head?

/-- `script.decompose()` loop of `extract_text`: remove every element with
a tag in `bad` from the forest, recursively. -/
def removeTags (bad : List String) : Html → Html
  | .nil => .nil
  | .text s rest => .text s (removeTags bad rest)
  | .elem t a c rest =>
    if bad.contains t then removeTags bad rest
    else .elem t a (removeTags bad c) (removeTags bad rest)

/-- Python `str.splitlines()` (newline conventions `\n`, `\r`, `\r\n`; no
trailing empty line; empty string gives `[]`). -/
def splitLinesAux : Nat → List Char → List (List Char)
  | 0, _ => []
  | _ + 1, [] => []
  | fuel + 1, l =>
    let line := l.takeWhile (fun c => c ≠ '\n' && c ≠ '\r')
    match l.drop line.length with
    | [] => [line]
    | '\r' :: '\n' :: r => line :: splitLinesAux fuel r
    | _ :: r => line :: splitLinesAux fuel r

def pySplitLines (s : String) : List String :=
  (splitLinesAux (s.data.length + 1) s.data).map (fun l => ⟨l⟩)

/-- `BaseScraper.extract_text` (src/scraper_toolkit.py:148-177): optional
content selector (full soup when it does not match), removal of
`script`/`style` elements, text extraction, and whitespace clean-up
(strip each line, split on double spaces, keep non-empty chunks). -/
def extract_text (html : String) (selector : Option String) : String :=
  let soup := parseHtml html
  let content :=
    match selector with
    | some sel =>
      match selectOne sel soup with
      | some c => Html.elem c.tag c.attrs c.children .nil
      | none => soup
    | none => soup
  let cleaned := removeTags ["script", "style"] content
  let text := Html.getText cleaned
  let lines := (pySplitLines text).map pyStrip
  let chunks := lines.flatMap (fun line => (line.splitOn "  ").map pyStrip)
  String.intercalate "\n" (chunks.filter (fun chunk => chunk ≠ ""))

/-! ## Exception-threading variants for the never-raises claim

Python can raise inside the extraction bodies only at list/str indexing and
`int()` conversion; every other operation used (regex search, `str.find`,
slicing, `.get` with default, appends) is total.  The `*E` variants thread
those partial primitives through `Except`; for bodies containing no partial
primitive the variant is the embedded body returned under `pure`. -/

/-- Python list indexing `l[i]` (raises `IndexError` out of range). -/
def pyGetIdx (l : List α) (i : Nat) : Except String α :=
  match l.drop i with
  | x :: _ => .ok x
  | [] => .error "IndexError"

/-- Python string indexing `s[i]`. -/
def pyStrGetIdx (s : String) (i : Nat) : Except String Char :=
  match s.data.drop i with
  | c :: _ => .ok c
  | [] => .error "IndexError"

/-- Python `int(s)` restricted to the non-negative digit strings this code
base feeds it (a non-digit raises `ValueError`). -/
def pyInt (s : String) : Except String Nat :=
  if s.data ≠ [] && s.data.all isDigitCh then
    .ok (s.data.foldl (fun n c => n * 10 + (c.toNat - 48)) 0)
  else .error "ValueError"

/-- `extract_model_info` with the guarded `paragraphs[0]` index threaded
through `Except`. -/
def extract_model_infoE (html : String) : Except String ModelInfo := do
  let soup := parseHtml html
  let text := Html.getText soup
  let paragraphs := Html.findAll (fun e => e.tag == "p") soup
  let description ←
    if paragraphs.isEmpty then pure ""
    else do
      let p ← pyGetIdx paragraphs 0
      pure (pyStrip p.getText)
  let endpoints := dedupFirst (pyFindall matchEndpoint text)
  let model_ids := (dedupFirst (pyFindall matchModelId text)).take 15
  let capabilities :=
    capability_keywords.filter (fun kw => hasSubstr (pyLower kw) (pyLower text))
  return { description := description, capabilities := capabilities,
           endpoints := endpoints, model_ids := model_ids }

/-- `extract_api_parameters` body: regex scans, `str.find`, slicing and
appends only, all total. -/
def extract_api_parametersE (html : String) : Except String ApiParameters :=
  pure (extract_api_parameters html)

/-- `extract_code_examples` body: `get_text`, `lower` and substring tests
only, all total. -/
def extract_code_examplesE (html : String) : Except String (List (String × String)) :=
  pure (extract_code_examples html)

/-- `extract_code_blocks` body: class/attribute lookups with defaults and
`replace`, all total. -/
def extract_code_blocksE (html : String) : Except String (List CodeBlock) :=
  pure (extract_code_blocks html)

/-- `extract_tables` with the guarded `rows[0]` index threaded through
`Except` (`rows[1:]` slicing is total). -/
def extract_tablesE (html : String) : Except String (List PyTable) := do
  let soup := parseHtml html
  (Html.findAll (fun e => e.tag == "table") soup).foldlM (fun tables table => do
    let rows := (Html.findAll (fun e => e.tag == "tr") table.children).foldl
      (fun rows tr =>
        let cells := (Html.findAll (fun e => e.tag == "td" || e.tag == "th")
            tr.children).map (fun td => pyStrip td.getText)
        if cells.isEmpty then rows else rows ++ [cells])
      []
    if rows.isEmpty then pure tables
    else do
      let h ← pyGetIdx rows 0
      let rest := if rows.length > 1 then rows.drop 1 else []
      pure (tables ++ [{ headers := h, rows := rest : PyTable }]))
    []

/-- `int(header.name[1])` with both partial primitives threaded through
`Except`: the string index `[1]` and the `int(...)` conversion. -/
def headerLevelE (tag : String) : Except String Nat := do
  let c ← pyStrGetIdx tag 1
  pyInt ⟨[c]⟩

/-- `extract_headers` with `header.name[1]` and `int(...)` threaded through
`Except`. -/
def extract_headersE (html : String) : Except String (List (Nat × String)) := do
  let soup := parseHtml html
  (Html.findAll (fun e => headerTags.contains e.tag) soup).foldlM
    (fun headers header => do
      let level ← headerLevelE header.tag
      let text := pyStrip header.getText
      if text = "" then pure headers else pure (headers ++ [(level, text)]))
    []

/-- `extract_text` body: selector lookup with fallback to the full soup,
decompose, and string clean-up — total for the bare tag-name selectors the
sources pass (`'main'` or none), which is what `selectOne` models; the
source additionally wraps the body in `try/except`, so even an invalid CSS
selector string could not escape it. -/
def extract_textE (html : String) (selector : Option String) : Except String String :=
  pure (extract_text html selector)

/-! ## Document synthesis

`AIMLScraperMobile.generate_context_md`
(src/aiml_advanced_scraper_mobile.py:216-587) builds its output as one big
f-string.  Python evaluates f-string replacement fields left to right; the
embedding below lists the template as the exact sequence of literal chunks
(one entry per run of literal text, with Python's `\\` escapes rendered)
and replacement fields, each field an
`Except`-value: a field whose expression is defined evaluates to `ok`, and
a field naming an unbound variable evaluates to the `NameError` Python
raises there.  The template's retry-strategy example (source lines
489-507) sits inside the f-string with three single-brace fields
`{attempt + 1}`, `{max_retries}` and `{wait:.2f}` whose names are not
bound anywhere in scope, so those three fields are `NameError`s.  The two
`datetime.now()` fields are the parameters `now1`/`now2` (the wall-clock
readings at evaluation time). -/

/-- `AIMLScraperMobile._format_list`
(src/aiml_advanced_scraper_mobile.py:589-594). -/
def format_list (items : List String) : String :=
  if items.isEmpty then "- No items"
  else String.intercalate "\n" (items.map (fun item => "- " ++ item))

def contextPieces (model_name model_url : String) (model_info : ModelInfo)
    (now1 now2 : String) : List (Except String String) :=
  [.ok "# AIML API Documentation Context: ",
   .ok model_name,
   .ok "\n\n**Generated**: ",
   .ok now1,
   .ok "\n**Model**: ",
   .ok model_name,
   .ok "\n**Source**: ",
   .ok model_url,
   .ok "\n\n---\n\n## Table of Contents\n\n1. [Model Overview](#model-overview)\n2. [Authentication](#authentication)\n3. [API Endpoints](#api-endpoints)\n4. [Request Parameters](#request-parameters)\n5. [Response Format](#response-format)\n6. [Code Examples](#code-examples)\n7. [Error Handling](#error-handling)\n8. [Rate Limits & Pricing](#rate-limits--pricing)\n\n---\n\n## Model Overview\n\n### Description\n\n",
   .ok (if model_info.description = "" then "See documentation for details." else model_info.description),
   .ok "\n\n### Capabilities\n\n",
   .ok (if model_info.capabilities.isEmpty then "- Standard text generation capabilities" else format_list model_info.capabilities),
   .ok "\n\n### Documentation\n\n- **Full Documentation**: [",
   .ok model_url,
   .ok "](",
   .ok model_url,
   .ok ")\n- **Base URL**: https://api.aimlapi.com/v1\n\n---\n\n## Authentication\n\n### API Key Setup\n\nAll requests require Bearer token authentication:\n\n```\nAuthorization: Bearer <YOUR_AIMLAPI_KEY>\n```\n\n### Environment Setup (Termux/Linux)\n\n```bash\n# Set temporarily\nexport AIML_API_KEY=\"your_key_here\"\n\n# Set permanently\necho \x27export AIML_API_KEY=\"your_key_here\"\x27 >> ~/.bashrc\nsource ~/.bashrc\n```\n\n### Getting Your API Key\n\n1. Visit https://aimlapi.com\n2. Sign up or log in\n3. Go to API Keys section\n4. Generate new key\n5. Store securely\n\n---\n\n## API Endpoints\n\n### Available Endpoints\n\n",
   .ok (if model_info.endpoints.isEmpty then "- `POST https://api.aimlapi.com/v1/chat/completions`" else format_list model_info.endpoints),
   .ok "\n\n### Primary Endpoint\n\n**POST** `https://api.aimlapi.com/v1/chat/completions`\n\nMain endpoint for chat-based interactions with ",
   .ok model_name,
   .ok ".\n\n---\n\n## Request Parameters\n\n### Required Parameters\n\n| Parameter | Type | Description |\n|-----------|------|-------------|\n| `model` | string | Model ID (e.g., `",
   .ok model_name,
   .ok "`) |\n| `messages` | array | Array of message objects with roles |\n\n### Optional Parameters\n\n| Parameter | Type | Default | Description |\n|-----------|------|---------|-------------|\n| `temperature` | number | 1.0 | Randomness (0.0-2.0) |\n| `top_p` | number | 1.0 | Nucleus sampling (0.01-1.0) |\n| `max_tokens` | number | - | Max response tokens |\n| `stream` | boolean | false | Enable streaming |\n| `stop` | array/string | - | Stop sequences (up to 4) |\n| `frequency_penalty` | number | 0 | Frequency penalty (-2.0 to 2.0) |\n| `presence_penalty` | number | 0 | Presence penalty (-2.0 to 2.0) |\n| `seed` | integer | - | For deterministic output |\n| `tools` | array | - | Function definitions |\n| `tool_choice` | string | auto | Tool usage control |\n| `response_format` | object | - | Output format (text, json) |\n\n---\n\n## Response Format\n\n### Success Response (200 OK)\n\n```json\n\x7b\n  \"id\": \"chatcmpl-xxx\",\n  \"object\": \"chat.completion\",\n  \"created\": 1234567890,\n  \"model\": \"",
   .ok model_name,
   .ok "\",\n  \"choices\": [\n    \x7b\n      \"index\": 0,\n      \"message\": \x7b\n        \"role\": \"assistant\",\n        \"content\": \"Response text\"\n      \x7d,\n      \"finish_reason\": \"stop\"\n    \x7d\n  ],\n  \"usage\": \x7b\n    \"prompt_tokens\": 10,\n    \"completion_tokens\": 20,\n    \"total_tokens\": 30\n  \x7d\n\x7d\n```\n\n### Error Response\n\n```json\n\x7b\n  \"error\": \x7b\n    \"message\": \"Error description\",\n    \"type\": \"error_type\",\n    \"code\": \"error_code\"\n  \x7d\n\x7d\n```\n\n---\n\n## Code Examples\n\n### Python\n\n```python\nfrom openai import OpenAI\n\nclient = OpenAI(\n    base_url=\"https://api.aimlapi.com/v1\",\n    api_key=\"",
   .ok model_name,
   .ok "\"\n)\n\nresponse = client.chat.completions.create(\n    model=\"",
   .ok model_name,
   .ok "\",\n    messages=[\n        \x7b\"role\": \"system\", \"content\": \"You are helpful.\"\x7d,\n        \x7b\"role\": \"user\", \"content\": \"Hello!\"\x7d\n    ],\n    temperature=0.7,\n    max_tokens=100\n)\n\nprint(response.choices[0].message.content)\n```\n\n### JavaScript\n\n```javascript\nconst OpenAI = require(\x27openai\x27);\n\nconst client = new OpenAI(\x7b\n    baseURL: \x27https://api.aimlapi.com/v1\x27,\n    apiKey: process.env.AIML_API_KEY\n\x7d);\n\nasync function main() \x7b\n    const response = await client.chat.completions.create(\x7b\n        model: \x27",
   .ok model_name,
   .ok "\x27,\n        messages: [\n            \x7b\"role\": \"system\", \"content\": \"You are helpful.\"\x7d,\n            \x7b\"role\": \"user\", \"content\": \"Hello!\"\x7d\n        ],\n        temperature: 0.7,\n        max_tokens: 100\n    \x7d);\n\n    console.log(response.choices[0].message.content);\n\x7d\n\nmain().catch(console.error);\n```\n\n### cURL\n\n```bash\ncurl -X POST https://api.aimlapi.com/v1/chat/completions \\\n  -H \"Authorization: Bearer $AIML_API_KEY\" \\\n  -H \"Content-Type: application/json\" \\\n  -d \x27\x7b\n    \"model\": \"",
   .ok model_name,
   .ok "\",\n    \"messages\": [\n      \x7b\"role\": \"user\", \"content\": \"Hello!\"\x7d\n    ],\n    \"temperature\": 0.7,\n    \"max_tokens\": 100\n  \x7d\x27\n```\n\n### Bash (Termux-friendly)\n\n```bash\n#!/bin/bash\n\nMODEL=\"",
   .ok model_name,
   .ok "\"\nAPI_KEY=\"$\x7bAIML_API_KEY\x7d\"\nPROMPT=\"$\x7b1:-Hello\x7d\"\n\ncurl -s -X POST https://api.aimlapi.com/v1/chat/completions \\\n  -H \"Authorization: Bearer $API_KEY\" \\\n  -H \"Content-Type: application/json\" \\\n  -d @- << EOF | jq \x27.choices[0].message.content\x27\n\x7b\n  \"model\": \"$MODEL\",\n  \"messages\": [\x7b\"role\": \"user\", \"content\": \"$PROMPT\"\x7d],\n  \"temperature\": 0.7,\n  \"max_tokens\": 500\n\x7d\nEOF\n```\n\n---\n\n## Error Handling\n\n### Common Error Codes\n\n| Code | Error | Solution |\n|------|-------|----------|\n| 400 | Bad Request | Check request format |\n| 401 | Unauthorized | Verify API key |\n| 403 | Forbidden | Check permissions |\n| 404 | Not Found | Verify model name |\n| 429 | Rate Limited | Implement backoff |\n| 500 | Server Error | Retry later |\n\n### Retry Strategy\n\n```python\nimport time\nimport random\n\ndef call_with_retry(client, model, messages, max_retries=3):\n    for attempt in range(max_retries):\n        try:\n            return client.chat.completions.create(\n                model=model,\n                messages=messages\n            )\n        except Exception as e:\n            if attempt < max_retries - 1:\n                wait = (2 ** attempt) + random.uniform(0, 1)\n                print(f\"Retry ",
   .error "NameError: name \x27attempt\x27 is not defined",
   .ok "/",
   .error "NameError: name \x27max_retries\x27 is not defined",
   .ok " in ",
   .error "NameError: name \x27wait\x27 is not defined",
   .ok "s\")\n                time.sleep(wait)\n            else:\n                raise\n```\n\n---\n\n## Rate Limits & Pricing\n\n### Rate Limiting\n\n- **Free Tier**: Limited requests/minute\n- **Pro Tier**: Higher limits\n- **Enterprise**: Custom limits\n\n### Pricing\n\nCosts based on:\n- Input tokens: Cost per 1K tokens\n- Output tokens: Higher cost per 1K tokens\n\nCheck https://aimlapi.com/pricing for current rates.\n\n### Cost Optimization\n\n1. Use `max_tokens` to limit responses\n2. Batch requests when possible\n3. Use lower temperature for deterministic output\n4. Cache common responses\n5. Use streaming for long responses\n6. Choose appropriate model size\n\n---\n\n## Model IDs\n\nThe following model IDs are available for ",
   .ok model_name,
   .ok ":\n\n",
   .ok (if model_info.model_ids.isEmpty then "- See documentation for available model IDs" else format_list model_info.model_ids),
   .ok "\n\n---\n\n## Additional Resources\n\n- **Official Docs**: https://docs.aimlapi.com\n- **Status Page**: https://status.aimlapi.com\n- **Support**: https://aimlapi.com/support\n- **GitHub**: https://github.com/aimlapi\n\n---\n\n## For AI Assistants\n\nThis context file contains:\n- ✅ Complete API endpoint information\n- ✅ All request/response parameters with types\n- ✅ Authentication requirements\n- ✅ Code examples in multiple languages\n- ✅ Error handling strategies\n- ✅ Rate limiting information\n- ✅ Termux/Linux-specific examples\n\nUse this to help users:\n- Build API integrations\n- Debug API calls\n- Optimize requests\n- Handle errors gracefully\n- Implement retry logic\n- Manage costs\n\n---\n\n**Last Updated**: ",
   .ok now2,
   .ok "\n**Model**: ",
   .ok model_name,
   .ok "\n**API Version**: v1\n**Storage**: /sdcard/AIML_API_Docs/\n"]

/-- Left-to-right evaluation of an f-string's chunks: the first failing
field aborts with its exception, exactly as in Python. -/
def fstringConcat : List (Except String String) → Except String String
  | [] => .ok ""
  | .error e :: _ => .error e
  | .ok s :: ps =>
    match fstringConcat ps with
    | .error e => .error e
    | .ok rest => .ok (s ++ rest)

/-- `AIMLScraperMobile.generate_context_md`
(src/aiml_advanced_scraper_mobile.py:216-587): extracts the three fact
records, evaluates the template, and (on success, which never occurs) would
return the output path and the content it writes there.  The file write and
the success prints come after the template evaluation in the source and are
modelled by the returned pair. -/
def generate_context_mdE (output_dir model_name model_url html : String)
    (now1 now2 : String) : Except String (String × String) := do
  let output_file := output_dir ++ "/" ++ model_name ++ "_context.md"
  let model_info := extract_model_info html
  let _parameters := extract_api_parameters html
  let _examples := extract_code_examples html
  let md_content ← fstringConcat (contextPieces model_name model_url model_info now1 now2)
  return (output_file, md_content)

/-! ### Generic record renderer (`BaseScraper.format_markdown`,
src/scraper_toolkit.py:283-310) -/

/-- The record `format_markdown` renders: the fields of the `data` dict the
scrapers build.  A dict without a `tables` key behaves like an empty
`tables` list (`data.get('tables')` is falsy either way). -/
structure ScrapeData where
  source_url : String
  scraped_at : String
  content : String
  code_examples : List CodeBlock
  tables : List PyTable
deriving Repr, DecidableEq

/-- `BaseScraper.format_markdown`. -/
def format_markdown (data : ScrapeData) (title : String) : String :=
  let md := "# " ++ title ++ "\n\n**Source**: [" ++ data.source_url ++ "](" ++
    data.source_url ++ ")\n**Scraped**: " ++ data.scraped_at ++
    "\n\n## Content\n\n" ++ data.content ++ "\n\n## Code Examples\n\n"
  let md := (data.code_examples.foldl (fun (acc : String × Nat) block =>
      (acc.1 ++ "\n### Example " ++ toString acc.2 ++ " (" ++ block.language ++
        ")\n\n```" ++ block.language ++ "\n" ++ block.code ++ "\n```\n",
       acc.2 + 1)) (md, 1)).1
  if data.tables.isEmpty then md
  else
    let md := md ++ "\n## Tables\n"
    (data.tables.foldl (fun (acc : String × Nat) table =>
      let md := acc.1 ++ "\n### Table " ++ toString acc.2 ++ "\n\n"
      let md := if table.headers.isEmpty then md
        else md ++ "| " ++ String.intercalate " | " table.headers ++ " |\n" ++
          "|" ++ String.intercalate "|" (List.replicate table.headers.length "---") ++ "|\n"
      let md := table.rows.foldl (fun md row =>
        md ++ "| " ++ String.intercalate " | " row ++ " |\n") md
      (md, acc.2 + 1)) (md, 1)).1

/-- The generic renderer observed together with the ambient wall clock: the
source body of `format_markdown` performs no effect and reads no ambient
state (in particular not the clock; the timestamp it prints is the record's
`scraped_at` field), so the clock argument is unused. -/
def format_markdown_at (data : ScrapeData) (title : String) (_now : String) : String :=
  format_markdown data title

/-! ## Spec-side definitions

Definitions in this section restate claims in the spec's words, to be
compared with the source-side definitions above. -/

/-- All identifiers recognised by the three parameter patterns over the
page text, in encounter order, lower-cased (the loop lower-cases each
match before classifying it). -/
def allParamMatches (text : String) : List String :=
  ((paramPatternMatches text).flatten).map pyLower

/-- Does the (lower-cased) name occur, case-insensitively, at index `i` of
the text? -/
def occursAtCI (text name : String) (i : Nat) : Bool :=
  startsWithCS (pyLower name).data ((pyLower text).data.drop i)

/-- Claim-side reading of C3's classification rule: the substring
`required` appears (case-insensitively) within the window
`text[i-100 : i+100]` around SOME occurrence `i` of the identifier in the
page text (occurrences taken case-insensitively, which is the generous
reading: if this is false, it is false in particular for the first
occurrence, under either case convention). -/
def claimRequiredNear (text name : String) : Bool :=
  (List.range (text.length + 1)).any (fun i =>
    occursAtCI text name i &&
      hasSubstr "required" (pyLower (pySlice text (i - 100) (i + 100))))

/-- The trimmed cell texts of one row element (`td`/`th` descendants). -/
def trCells (tr : Elem) : List String :=
  (Html.findAll (fun e => e.tag == "td" || e.tag == "th") tr.children).map
    (fun td => pyStrip td.getText)

/-- The surviving rows of one table element: the cell lists of its row
elements, rows producing no cells dropped. -/
def tableSurvivingRows (table : Elem) : List (List String) :=
  ((Html.findAll (fun e => e.tag == "tr") table.children).map trCells).filter
    (fun cells => ! cells.isEmpty)

/-- Spec-side table extraction, written after the claim's words: per table
element, the first surviving row is the header row and the remaining
surviving rows are the data rows; tables with no surviving rows are
dropped. -/
def tablesSpec (html : String) : List PyTable :=
  (Html.findAll (fun e => e.tag == "table") (parseHtml html)).filterMap
    (fun table =>
      match tableSurvivingRows table with
      | [] => none
      | h :: rest => some { headers := h, rows := rest })

/-- Amended language rule of C8, written as the claim must be amended to:
the language derives from the first class token containing the substring
`language-`, with every occurrence of `language-` deleted; when there is no
such token, or the derived token is exactly `text`, the `data-language`
attribute value is used if present; otherwise the language is the literal
`text`. -/
def languageSpec (classes : List String) (dataLang : Option String) : String :=
  let derived :=
    match classes.find? (fun cls => hasSubstr "language-" cls) with
    | some cls => removeAllSub "language-" cls
    | none => "text"
  if derived = "text" then
    match dataLang with
    | some v => v
    | none => "text"
  else derived

/-- Spec-side code-sample extraction: one sample per `code`/`pre` element
whose text is not only whitespace, with the detected language and the
trimmed text. -/
def codeBlocksSpec (html : String) : List CodeBlock :=
  (Html.findAll (fun e => e.tag == "code" || e.tag == "pre") (parseHtml html)).filterMap
    (fun e =>
      if pyStrip e.getText = "" then none
      else some { language := detectLanguage e, code := pyStrip e.getText })

/-- Claim-side language rule of C8 as originally stated: the language of a
`language-<x>` class token is `x` (the remainder after the `language-`
marker that starts the token); with no such token, the `data-language`
attribute; else the literal `text`. -/
def claimLanguage (classes : List String) (dataLang : Option String) : String :=
  match classes.find? (fun cls => startsWithCS "language-".data cls.data) with
  | some cls => ⟨cls.data.drop "language-".length⟩
  | none =>
    match dataLang with
    | some v => v
    | none => "text"

/-- Concrete input for the C3 counterexample: the word `required` at the
start, 100 filler characters, then a pattern-3 identifier that occurs only
in upper case.  Its lower-cased form `abc_def` has no case-sensitive
occurrence, so the code's window is `text[0:99]`, far from the
identifier's only occurrence. -/
def c3CounterText : String :=
  "requiredxxxxxxxxxxxxxxxxxxxxxxxxxxxxxxxxxxxxxxxxxxxxxxxxxxxxxxxxxxxxxxxxxxxxxxxxxxxxxxxxxxxxxxxxxxxxxxxxxxxx`ABC_DEF`|"

theorem scanTable_eq_find? (t : List (String × String)) (s : String) :
    scanTable t s = (t.find? (fun pr => startsWithCS pr.1.data s.data)).map (·.2) := by
  induction t with
  | nil => rfl
  | cons hd tl ih =>
    obtain ⟨pfx, prov⟩ := hd
    simp only [scanTable, List.find?]
    by_cases h : startsWithCS pfx.data s.data = true
    · simp [h]
    · simp [h, ih]

/-- C1: the validator returns true iff the trimmed length of its input is
strictly greater than 100; in particular a trimmed length of exactly 100
yields `false` and a trimmed length of 101 yields `true`. -/
theorem validate_content_iff_trimmed_gt_100 (content : String) :
    (validate_content content = true ↔ 100 < (pyStrip content).length) ∧
    ((pyStrip content).length = 100 → validate_content content = false) ∧
    ((pyStrip content).length = 101 → validate_content content = true) := by
  refine ⟨?_, ?_, ?_⟩
  · simp [validate_content, min_content_length]
  · intro h
    simp [validate_content, min_content_length, h]
  · intro h
    simp [validate_content, min_content_length, h]

/-- Witness for C1: a string of 100 `a`s fails validation and a string of
101 `a`s passes it, via the boundary clauses of the theorem. -/
theorem validate_content_boundary_witness :
    ((pyStrip ⟨List.replicate 100 'a'⟩).length = 100 ∧
      validate_content ⟨List.replicate 100 'a'⟩ = false) ∧
    ((pyStrip ⟨List.replicate 101 'a'⟩).length = 101 ∧
      validate_content ⟨List.replicate 101 'a'⟩ = true) :=
  ⟨⟨by decide, (validate_content_iff_trimmed_gt_100 ⟨List.replicate 100 'a'⟩).2.1 (by decide)⟩,
   ⟨by decide, (validate_content_iff_trimmed_gt_100 ⟨List.replicate 101 'a'⟩).2.2 (by decide)⟩⟩

/-- C5: `find_model_url` scans the fixed ordered prefix table and selects the
sub-provider of the first case-insensitive prefix match (so `gpt-4o`
resolves through `openai`); it fails with `UnknownProviderForModel` carrying
the list of supported prefixes exactly when no prefix matches (so
`unknown-model-x` fails). -/
theorem find_model_url_spec :
    (∀ name, find_model_url name = resolveSpec name) ∧
    (∀ name, (find_model_url name).isUnknown =
      provider_map.all (fun pr => ! startsWithCS pr.1.data (pyLower name).data)) ∧
    find_model_url "gpt-4o" =
      .ok "https://docs.aimlapi.com/api-references/text-models-llm/openai/gpt-4o" ∧
    find_model_url "unknown-model-x" =
      .unknownProviderForModel
        ["gpt-", "o1", "o3", "o4", "claude-", "deepseek-", "gemini-", "mistral-",
         "llama-", "qwen-", "moonshot-", "command-", "grok-"] := by
  refine ⟨?_, ?_, by decide, by decide⟩
  · intro name
    simp only [find_model_url, resolveSpec, scanTable_eq_find?]
    cases provider_map.find? (fun pr => startsWithCS pr.1.data (pyLower name).data) <;> rfl
  · intro name
    rcases h : provider_map.find? (fun pr => startsWithCS pr.1.data (pyLower name).data) with _ | pr
    · simp only [find_model_url, h, ResolveResult.isUnknown]
      rw [List.find?_eq_none] at h
      rw [eq_comm, List.all_eq_true]
      intro x hx
      simpa using h x hx
    · simp only [find_model_url, h, ResolveResult.isUnknown]
      have hp := List.find?_some h
      have hm := List.mem_of_find?_eq_some h
      rw [eq_comm, Bool.eq_false_iff]
      intro hall
      rw [List.all_eq_true] at hall
      have := hall pr hm
      rw [hp] at this
      simp at this

/-! ## Helper lemmas -/

theorem mem_dedupFirstAux : ∀ (l seen : List String) (a : String),
    a ∈ dedupFirstAux seen l → a ∉ seen := by
  intro l
  induction l with
  | nil => intro seen a h; simp [dedupFirstAux] at h
  | cons b t ih =>
    intro seen a h
    by_cases hb : b ∈ seen
    · rw [dedupFirstAux, if_pos hb] at h
      exact ih seen a h
    · rw [dedupFirstAux, if_neg hb] at h
      rcases List.mem_cons.mp h with h | h
      · exact h ▸ hb
      · have := ih (seen ++ [b]) a h
        intro hc
        exact this (by simp [hc])

theorem dedupFirstAux_nodup : ∀ (l seen : List String), (dedupFirstAux seen l).Nodup := by
  intro l
  induction l with
  | nil => intro seen; simp [dedupFirstAux]
  | cons b t ih =>
    intro seen
    by_cases hb : b ∈ seen
    · rw [dedupFirstAux, if_pos hb]; exact ih seen
    · rw [dedupFirstAux, if_neg hb]
      refine List.nodup_cons.mpr ⟨fun hmem => ?_, ih (seen ++ [b])⟩
      exact mem_dedupFirstAux t (seen ++ [b]) b hmem (by simp)

theorem dedupFirst_nodup (l : List String) : (dedupFirst l).Nodup :=
  dedupFirstAux_nodup l []

set_option maxRecDepth 16000 in
/-- C2: for every HTML input the `model_ids` field is deduplicated (no
duplicate entries) and capped at 15 entries; concretely, an input
containing the identifier substring `abc` twice (two regex matches) yields
the single entry `abc`, and an input containing 20 distinct
model-identifier matches yields exactly 15 entries. -/
theorem model_ids_dedup_and_capped :
    (∀ html, (extract_model_info html).model_ids.Nodup ∧
      (extract_model_info html).model_ids.length ≤ 15) ∧
    pyFindall matchModelId "model: abc and model: abc again" = ["abc", "abc"] ∧
    (extract_model_info "model: abc and model: abc again").model_ids = ["abc"] ∧
    (dedupFirst (pyFindall matchModelId "model: b0 model: b1 model: b2 model: b3 model: b4 model: b5 model: b6 model: b7 model: b8 model: b9 model: c0 model: c1 model: c2 model: c3 model: c4 model: c5 model: c6 model: c7 model: c8 model: c9")).length = 20 ∧
    (extract_model_info "model: b0 model: b1 model: b2 model: b3 model: b4 model: b5 model: b6 model: b7 model: b8 model: b9 model: c0 model: c1 model: c2 model: c3 model: c4 model: c5 model: c6 model: c7 model: c8 model: c9").model_ids.length = 15 := by
  refine ⟨?_, by decide, by decide, by decide, by decide⟩
  intro html
  constructor
  · exact (List.take_sublist 15 _).nodup (dedupFirst_nodup _)
  · exact List.length_take_le 15 _

theorem dropWhile_head?_false {α : Type} (p : α → Bool) :
    ∀ (l : List α) (a : α), (l.dropWhile p).head? = some a → p a = false := by
  intro l
  induction l with
  | nil => intro a h; simp [List.dropWhile] at h
  | cons b t ih =>
    intro a h
    by_cases hb : p b = true
    · rw [List.dropWhile_cons_of_pos hb] at h
      exact ih a h
    · rw [List.dropWhile_cons_of_neg hb] at h
      simp at h
      rw [← h]
      simpa using hb

theorem dropWhile_of_head?_false {α : Type} (p : α → Bool) (l : List α)
    (h : ∀ a, l.head? = some a → p a = false) : l.dropWhile p = l := by
  cases l with
  | nil => rfl
  | cons a t => rw [List.dropWhile_cons_of_neg (by simp [h a rfl])]

theorem dropWhile_idem {α : Type} (p : α → Bool) (l : List α) :
    (l.dropWhile p).dropWhile p = l.dropWhile p :=
  dropWhile_of_head?_false p _ (fun a h => dropWhile_head?_false p l a h)

theorem pyStripList_dropWhile (l : List Char) :
    (pyStripList l).dropWhile pyIsSpace = pyStripList l := by
  apply dropWhile_of_head?_false
  intro a h
  unfold pyStripList at h
  rw [List.head?_reverse] at h
  have hne : ((l.dropWhile pyIsSpace).reverse.dropWhile pyIsSpace) ≠ [] := by
    intro hnil
    rw [hnil] at h
    simp at h
  obtain ⟨t, ht⟩ := List.dropWhile_suffix (l := (l.dropWhile pyIsSpace).reverse) (p := pyIsSpace)
  have h2 : ((l.dropWhile pyIsSpace).reverse).getLast? = some a := by
    rw [← ht, List.getLast?_append_of_ne_nil t hne]
    exact h
  rw [List.getLast?_reverse] at h2
  exact dropWhile_head?_false pyIsSpace l a h2

theorem pyStripList_reverse_dropWhile (l : List Char) :
    (pyStripList l).reverse.dropWhile pyIsSpace = (pyStripList l).reverse := by
  unfold pyStripList
  rw [List.reverse_reverse]
  exact dropWhile_idem _ _

theorem pyStripList_idem (l : List Char) : pyStripList (pyStripList l) = pyStripList l := by
  conv_lhs => rw [pyStripList, pyStripList_dropWhile, pyStripList_reverse_dropWhile]
  rw [List.reverse_reverse]

theorem pyStrip_idem (s : String) : pyStrip (pyStrip s) = pyStrip s := by
  unfold pyStrip
  exact congrArg String.mk (pyStripList_idem s.data)

theorem foldl_tables_spec (t : Elem → List (List String)) :
    ∀ (l : List Elem) (acc : List PyTable),
      l.foldl (fun tables table =>
        match t table with
        | [] => tables
        | h :: rest => tables ++ [{ headers := h, rows := rest }]) acc =
      acc ++ l.filterMap (fun table =>
        match t table with
        | [] => none
        | h :: rest => some { headers := h, rows := rest }) := by
  intro l
  induction l with
  | nil => intro acc; simp
  | cons hd tl ih =>
    intro acc
    rw [List.foldl_cons, List.filterMap_cons]
    cases ht : t hd with
    | nil => simp only [ht]; exact ih acc
    | cons h rest => simp only [ht]; rw [ih (acc ++ _)]; simp

theorem tables_rows_fold (trs : List Elem) :
    ∀ (acc : List (List String)),
      trs.foldl (fun rows tr =>
        let cells := (Html.findAll (fun e => e.tag == "td" || e.tag == "th")
            tr.children).map (fun td => pyStrip td.getText)
        if cells.isEmpty then rows else rows ++ [cells]) acc =
      acc ++ (trs.map trCells).filter (fun cells => ! cells.isEmpty) := by
  induction trs with
  | nil => intro acc; simp
  | cons tr rest ih =>
    intro acc
    rw [List.foldl_cons, List.map_cons, List.filter_cons]
    by_cases hc : (trCells tr).isEmpty = true
    · have : (trCells tr).isEmpty = true := hc
      show rest.foldl _ (if (trCells tr).isEmpty then acc else acc ++ [trCells tr]) = _
      rw [if_pos hc, ih acc]
      simp [hc]
    · show rest.foldl _ (if (trCells tr).isEmpty then acc else acc ++ [trCells tr]) = _
      rw [if_neg hc, ih (acc ++ [trCells tr])]
      simp [hc]

theorem extract_tables_eq_spec (html : String) : extract_tables html = tablesSpec html := by
  unfold extract_tables tablesSpec
  rw [List.foldl_ext (g := fun tables table =>
      match tableSurvivingRows table with
      | [] => tables
      | h :: rest => tables ++ [{ headers := h, rows := rest : PyTable }])]
  · rw [foldl_tables_spec]
    simp
  · intro acc table _
    show (match (Html.findAll (fun e => e.tag == "tr") table.children).foldl _ [] with
      | [] => acc
      | h :: rest => acc ++ [{ headers := h, rows := rest : PyTable }]) = _
    rw [tables_rows_fold]
    rfl

/-- C7: table extraction agrees with the spec-side description: per table
element, the first surviving row (a row is dropped exactly when it yields
no cells) is the header row and the remaining surviving rows are the data
rows; every cell text is trimmed (fixed by `pyStrip`); every surviving row
is non-empty; and tables with no surviving rows are dropped, so every
extracted table has a non-empty header row. -/
theorem tables_first_row_header_spec (html : String) :
    extract_tables html = tablesSpec html ∧
    (extract_tables html).all (fun t =>
      (t.headers :: t.rows).all (fun row => row.all (fun c => pyStrip c == c))) = true ∧
    (extract_tables html).all (fun t =>
      ! t.headers.isEmpty && t.rows.all (fun row => ! row.isEmpty)) = true := by
  refine ⟨extract_tables_eq_spec html, ?_, ?_⟩
  · rw [extract_tables_eq_spec html, List.all_eq_true]
    intro t ht
    rw [tablesSpec, List.mem_filterMap] at ht
    obtain ⟨table, -, hf⟩ := ht
    rcases hsr : tableSurvivingRows table with _ | ⟨h0, rest⟩ <;> rw [hsr] at hf
    · simp at hf
    · simp only [Option.some.injEq] at hf
      rw [List.all_eq_true]
      intro row hrow
      rw [List.all_eq_true]
      intro c hc
      have hrow' : row ∈ tableSurvivingRows table := by
        rw [hsr]
        rw [← hf] at hrow
        simpa using hrow
      have hmap : row ∈ (Html.findAll (fun e => e.tag == "tr") table.children).map trCells :=
        (List.mem_filter.mp (by rw [tableSurvivingRows] at hrow'; exact hrow')).1
      obtain ⟨tr, -, htr⟩ := List.mem_map.mp hmap
      rw [← htr] at hc
      rw [trCells] at hc
      obtain ⟨td, -, htd⟩ := List.mem_map.mp hc
      rw [← htd, pyStrip_idem]
      simp
  · rw [extract_tables_eq_spec html, List.all_eq_true]
    intro t ht
    rw [tablesSpec, List.mem_filterMap] at ht
    obtain ⟨table, -, hf⟩ := ht
    rcases hsr : tableSurvivingRows table with _ | ⟨h0, rest⟩ <;> rw [hsr] at hf
    · simp at hf
    · simp only [Option.some.injEq] at hf
      have hmem : ∀ row ∈ tableSurvivingRows table, (! row.isEmpty) = true := by
        intro row hrow
        rw [tableSurvivingRows] at hrow
        exact (List.mem_filter.mp hrow).2
      rw [← hf]
      simp only [Bool.and_eq_true]
      constructor
      · exact hmem h0 (by rw [hsr]; simp)
      · rw [List.all_eq_true]
        intro row hrow
        exact hmem row (by rw [hsr]; simp [hrow])

theorem foldl_guard_filterMap {α β : Type} (q : α → Prop) [DecidablePred q] (g : α → β) :
    ∀ (l : List α) (acc : List β),
      l.foldl (fun acc x => if q x then acc else acc ++ [g x]) acc =
        acc ++ l.filterMap (fun x => if q x then none else some (g x)) := by
  intro l
  induction l with
  | nil => intro acc; simp
  | cons x xs ih =>
    intro acc
    rw [List.foldl_cons, List.filterMap_cons]
    by_cases hq : q x
    · simp only [if_pos hq]
      exact ih acc
    · simp only [if_neg hq]
      rw [ih (acc ++ [g x])]
      simp

theorem extract_code_blocks_eq_spec (html : String) :
    extract_code_blocks html = codeBlocksSpec html := by
  unfold extract_code_blocks codeBlocksSpec
  have h := foldl_guard_filterMap (fun e : Elem => pyStrip e.getText = "")
    (fun e : Elem => { language := detectLanguage e, code := pyStrip e.getText : CodeBlock })
    (Html.findAll (fun e => e.tag == "code" || e.tag == "pre") (parseHtml html)) []
  exact h.trans (List.nil_append _)

theorem detectLanguage_eq_languageSpec (e : Elem) :
    detectLanguage e = languageSpec (elemClassList e) (attrsGet e.attrs "data-language") := by
  unfold detectLanguage languageSpec
  cases hf : (elemClassList e).find? (fun cls => hasSubstr "language-" cls) with
  | none => rfl
  | some cls =>
    by_cases hd : removeAllSub "language-" cls = "text"
    · cases attrsGet e.attrs "data-language" <;> simp [hd]
    · rw [if_neg hd, if_neg hd]

/-- C8 counterexample: on the input whose single code element has the class
token `xlanguage-y` (which contains the substring `language-` but is not a
`language-<x>` token) and no `data-language` attribute, the code assigns
the language `xy` (global deletion of `language-`), whereas the claim as
stated dictates the literal `text`. -/
theorem code_blocks_language_counterexample :
    extract_code_blocks "<code class=\"xlanguage-y\">hello</code>" =
      [{ language := "xy", code := "hello" }] ∧
    parseHtml "<code class=\"xlanguage-y\">hello</code>" =
      Html.elem "code" [("class", "xlanguage-y")] (Html.text "hello" Html.nil) Html.nil ∧
    elemClassList (Elem.mk "code" [("class", "xlanguage-y")] (Html.text "hello" Html.nil)) =
      ["xlanguage-y"] ∧
    (["xlanguage-y"].all (fun tok => ! startsWithCS "language-".data tok.data)) = true ∧
    attrsGet [("class", "xlanguage-y")] "data-language" = none ∧
    claimLanguage ["xlanguage-y"] none = "text" ∧
    ("xy" : String) ≠ "text" :=
  ⟨by decide, by decide, by decide, by decide, by decide, by decide, by decide⟩

/-- C8 amended: each extracted sample's language is derived from the first
class token containing the substring `language-` by deleting every
occurrence of `language-` from it; when no class token contains
`language-`, or the derived token is exactly `text`, the `data-language`
attribute value is used if the attribute is present; otherwise the language
is the literal `text`.  Every code element whose text content is only
whitespace is dropped, and kept samples store the trimmed text. -/
theorem code_blocks_language_amended (html : String) :
    extract_code_blocks html = codeBlocksSpec html ∧
    (∀ e : Elem, detectLanguage e =
      languageSpec (elemClassList e) (attrsGet e.attrs "data-language")) :=
  ⟨extract_code_blocks_eq_spec html, detectLanguage_eq_languageSpec⟩

theorem mem_filter_or (P : String → Bool) (seen : List String) (a : String) :
    (a ∈ seen.filter P ∨ a ∈ seen.filter (fun n => ! P n)) ↔ a ∈ seen := by
  constructor
  · rintro (h | h) <;> exact (List.mem_filter.mp h).1
  · intro h
    cases hP : P a
    · right
      exact List.mem_filter.mpr ⟨h, by simp [hP]⟩
    · left
      exact List.mem_filter.mpr ⟨h, hP⟩

theorem classifyStep_fold (text : String) :
    ∀ (names seen : List String),
      names.foldl (classifyStep text)
        { required := seen.filter (fun n => requiredNear text n),
          optional := seen.filter (fun n => ! requiredNear text n),
          descriptions := [] } =
      { required := (seen ++ dedupFirstAux seen names).filter (fun n => requiredNear text n),
        optional := (seen ++ dedupFirstAux seen names).filter (fun n => ! requiredNear text n),
        descriptions := [] } := by
  intro names
  induction names with
  | nil => intro seen; simp [dedupFirstAux]
  | cons a t ih =>
    intro seen
    rw [List.foldl_cons]
    by_cases hmem : a ∈ seen
    · have hstep : classifyStep text
          { required := seen.filter (fun n => requiredNear text n),
            optional := seen.filter (fun n => ! requiredNear text n),
            descriptions := [] } a =
          { required := seen.filter (fun n => requiredNear text n),
            optional := seen.filter (fun n => ! requiredNear text n),
            descriptions := [] } := by
        unfold classifyStep
        rw [if_pos ((mem_filter_or _ seen a).mpr hmem)]
      rw [hstep, dedupFirstAux, if_pos hmem]
      exact ih seen
    · have hnc : ¬ (a ∈ (seen.filter fun n => requiredNear text n) ∨
          a ∈ (seen.filter fun n => ! requiredNear text n)) :=
        fun hc => hmem ((mem_filter_or _ seen a).mp hc)
      rw [dedupFirstAux, if_neg hmem]
      cases hP : requiredNear text a with
      | true =>
        have h1 : (seen ++ [a]).filter (fun n => requiredNear text n) =
            seen.filter (fun n => requiredNear text n) ++ [a] := by
          rw [List.filter_append]
          simp [hP]
        have h2 : (seen ++ [a]).filter (fun n => ! requiredNear text n) =
            seen.filter (fun n => ! requiredNear text n) := by
          rw [List.filter_append]
          simp [hP]
        have hstep : classifyStep text
            { required := seen.filter (fun n => requiredNear text n),
              optional := seen.filter (fun n => ! requiredNear text n),
              descriptions := [] } a =
            { required := (seen ++ [a]).filter (fun n => requiredNear text n),
              optional := (seen ++ [a]).filter (fun n => ! requiredNear text n),
              descriptions := [] } := by
          unfold classifyStep
          rw [if_neg hnc, if_pos hP, h1, h2]
        rw [hstep, ih (seen ++ [a])]
        simp
      | false =>
        have h1 : (seen ++ [a]).filter (fun n => requiredNear text n) =
            seen.filter (fun n => requiredNear text n) := by
          rw [List.filter_append]
          simp [hP]
        have h2 : (seen ++ [a]).filter (fun n => ! requiredNear text n) =
            seen.filter (fun n => ! requiredNear text n) ++ [a] := by
          rw [List.filter_append]
          simp [hP]
        have hstep : classifyStep text
            { required := seen.filter (fun n => requiredNear text n),
              optional := seen.filter (fun n => ! requiredNear text n),
              descriptions := [] } a =
            { required := (seen ++ [a]).filter (fun n => requiredNear text n),
              optional := (seen ++ [a]).filter (fun n => ! requiredNear text n),
              descriptions := [] } := by
          unfold classifyStep
          rw [if_neg hnc, if_neg (by simp [hP]), h1, h2]
        rw [hstep, ih (seen ++ [a])]
        simp

theorem foldl_foldl_flatten {β : Type} (f : β → String → β) :
    ∀ (L : List (List String)) (b : β),
      L.foldl (fun b l => l.foldl f b) b = L.flatten.foldl f b := by
  intro L
  induction L with
  | nil => intro b; rfl
  | cons l Ls ih =>
    intro b
    rw [List.foldl_cons, List.flatten_cons, List.foldl_append]
    exact ih _

theorem paramStep_as_classify (text : String) :
    paramStep text = fun ps m => classifyStep text ps (pyLower m) := rfl

theorem extract_api_parameters_eq (html : String) :
    extract_api_parameters html =
      { required := (dedupFirst (allParamMatches (Html.getText (parseHtml html)))).filter
          (fun n => requiredNear (Html.getText (parseHtml html)) n),
        optional := (dedupFirst (allParamMatches (Html.getText (parseHtml html)))).filter
          (fun n => ! requiredNear (Html.getText (parseHtml html)) n),
        descriptions := [] } := by
  unfold extract_api_parameters
  rw [foldl_foldl_flatten (paramStep (Html.getText (parseHtml html))), paramStep_as_classify,
    ← List.foldl_map pyLower (classifyStep (Html.getText (parseHtml html)))]
  have hinit : ({ required := [], optional := [], descriptions := [] } : ApiParameters) =
      { required := ([] : List String).filter
          (fun n => requiredNear (Html.getText (parseHtml html)) n),
        optional := ([] : List String).filter
          (fun n => ! requiredNear (Html.getText (parseHtml html)) n),
        descriptions := [] } := by simp
  rw [hinit, classifyStep_fold]
  rfl

set_option maxRecDepth 40000 in
/-- C3 counterexample: on `c3CounterText`, the identifier is recognised
only from its upper-case occurrence `ABC_DEF` (position 109); the word
`required` occurs only at positions 0-7, outside the ±100-character window
of every occurrence of the identifier (`claimRequiredNear` is false even
under the generous any-occurrence, case-insensitive reading), so the claim
classifies it optional — but the code classifies it required, because
`text.find('abc_def')` returns `-1` and the window silently becomes
`text[0:99]`. -/
theorem extract_api_parameters_window_counterexample :
    (extract_api_parameters c3CounterText).required = ["abc_def"] ∧
    (extract_api_parameters c3CounterText).optional = [] ∧
    Html.getText (parseHtml c3CounterText) = c3CounterText ∧
    claimRequiredNear c3CounterText "abc_def" = false :=
  ⟨by decide, by decide, by decide, by decide⟩

/-- C3 amended: each unique identifier recognised by the patterns (lowered)
is classified exactly once, by a predicate depending only on the page text
and the identifier — `required` appears (case-insensitively) in the window
`text[max(0,i-100) : i+100]`, where `i` is the index of the first
case-sensitive occurrence of the lowered identifier in the page text, the
window being `text[0:99]` when there is no such occurrence — so
re-encountering an identifier never changes its classification: the two
lists are the first-occurrence deduplication of all matches, filtered by
that predicate and its negation. -/
theorem extract_api_parameters_window_spec (html : String) :
    extract_api_parameters html =
      { required := (dedupFirst (allParamMatches (Html.getText (parseHtml html)))).filter
          (fun n => requiredNear (Html.getText (parseHtml html)) n),
        optional := (dedupFirst (allParamMatches (Html.getText (parseHtml html)))).filter
          (fun n => ! requiredNear (Html.getText (parseHtml html)) n),
        descriptions := [] } ∧
    (∀ name, name ∈ (extract_api_parameters html).required ↔
      name ∈ dedupFirst (allParamMatches (Html.getText (parseHtml html))) ∧
        requiredNear (Html.getText (parseHtml html)) name = true) ∧
    (∀ name, name ∈ (extract_api_parameters html).optional ↔
      name ∈ dedupFirst (allParamMatches (Html.getText (parseHtml html))) ∧
        requiredNear (Html.getText (parseHtml html)) name = false) := by
  refine ⟨extract_api_parameters_eq html, ?_, ?_⟩
  · intro name
    rw [extract_api_parameters_eq html]
    simp [List.mem_filter]
  · intro name
    rw [extract_api_parameters_eq html]
    simp [List.mem_filter]

/-- C9: the `required` and `optional` lists of parameter extraction contain
no duplicates and are disjoint, for every input. -/
theorem params_required_optional_disjoint (html : String) :
    (extract_api_parameters html).required.Nodup ∧
    (extract_api_parameters html).optional.Nodup ∧
    ((extract_api_parameters html).required.all
      (fun x => ! (extract_api_parameters html).optional.contains x)) = true := by
  rw [extract_api_parameters_eq html]
  refine ⟨(dedupFirst_nodup _).filter _, (dedupFirst_nodup _).filter _, ?_⟩
  rw [List.all_eq_true]
  intro x hx
  have hP := (List.mem_filter.mp hx).2
  have hnot : x ∉ (dedupFirst (allParamMatches (Html.getText (parseHtml html)))).filter
      (fun n => ! requiredNear (Html.getText (parseHtml html)) n) := by
    intro hc
    have h2 := (List.mem_filter.mp hc).2
    rw [hP] at h2
    simp at h2
  cases hc : ((dedupFirst (allParamMatches (Html.getText (parseHtml html)))).filter
      (fun n => ! requiredNear (Html.getText (parseHtml html)) n)).contains x with
  | false => rfl
  | true => exact absurd (by simpa using hc) hnot

theorem dictGet_dictSet (d : List (String × String)) (k v : String) :
    ∀ k', dictGet (dictSet d k v) k' = if k' = k then some v else dictGet d k' := by
  induction d with
  | nil =>
    intro k'
    by_cases h : k' = k
    · subst h
      simp [dictSet, dictGet]
    · simp [dictSet, dictGet, h, show ¬ (k = k') from fun hh => h hh.symm]
  | cons p rest ih =>
    obtain ⟨k0, v0⟩ := p
    intro k'
    by_cases h0 : k0 = k
    · subst h0
      by_cases h : k' = k0
      · subst h
        simp [dictSet, dictGet]
      · simp [dictSet, dictGet, h, show ¬ (k0 = k') from fun hh => h hh.symm]
    · by_cases h : k' = k0
      · subst h
        simp [dictSet, dictGet, h0, show ¬ (k' = k) from fun hh => h0 (hh ▸ rfl)]
      · simp [dictSet, dictGet, h0, show ¬ (k0 = k') from fun hh => h hh.symm, ih k']

theorem dictSet_keys (d : List (String × String)) (k v : String) :
    (dictSet d k v).map Prod.fst =
      if k ∈ d.map Prod.fst then d.map Prod.fst else d.map Prod.fst ++ [k] := by
  induction d with
  | nil => simp [dictSet]
  | cons p rest ih =>
    obtain ⟨k0, v0⟩ := p
    by_cases h : k0 = k
    · subst h
      simp [dictSet]
    · rw [dictSet, if_neg h, List.map_cons, List.map_cons, ih]
      by_cases hk : k ∈ rest.map Prod.fst
      · rw [if_pos hk, if_pos (by simp [hk])]
      · rw [if_neg hk,
          if_neg (by simp [hk, show ¬ (k = k0) from fun hh => h hh.symm]),
          List.cons_append]

theorem classifyExample_range (t k : String) (h : classifyExample t = some k) :
    k = "curl" ∨ k = "python" ∨ k = "javascript" ∨ k = "bash" := by
  unfold classifyExample at h
  split_ifs at h <;> simp_all

theorem examples_fold_invariant (blocks : List Elem) :
    ∀ (acc : List (String × String)) (ts : List String),
      (∀ k, dictGet acc k = (ts.filter (fun t => classifyExample t == some k)).getLast?) →
      (acc.map Prod.fst).Nodup →
      (∀ k, k ∈ acc.map Prod.fst → k ∈ ["curl", "python", "javascript", "bash"]) →
      (∀ k, dictGet (blocks.foldl (fun examples code =>
            match classifyExample code.getText with
            | some k => dictSet examples k code.getText
            | none => examples) acc) k =
          ((ts ++ blocks.map Elem.getText).filter
            (fun t => classifyExample t == some k)).getLast?) ∧
      ((blocks.foldl (fun examples code =>
            match classifyExample code.getText with
            | some k => dictSet examples k code.getText
            | none => examples) acc).map Prod.fst).Nodup ∧
      (∀ k, k ∈ (blocks.foldl (fun examples code =>
            match classifyExample code.getText with
            | some k => dictSet examples k code.getText
            | none => examples) acc).map Prod.fst →
          k ∈ ["curl", "python", "javascript", "bash"]) := by
  induction blocks with
  | nil =>
    intro acc ts hget hnodup hrange
    refine ⟨fun k => ?_, hnodup, hrange⟩
    simpa using hget k
  | cons b bs ih =>
    intro acc ts hget hnodup hrange
    rw [List.foldl_cons]
    cases hcl : classifyExample b.getText with
    | none =>
      have hget' : ∀ k, dictGet acc k =
          ((ts ++ [b.getText]).filter (fun t => classifyExample t == some k)).getLast? := by
        intro k
        rw [List.filter_append]
        have hone : [b.getText].filter (fun t => classifyExample t == some k) = [] := by
          simp [hcl]
        rw [hone, List.append_nil]
        exact hget k
      have h := ih acc (ts ++ [b.getText]) hget' hnodup hrange
      refine ⟨fun k => ?_, h.2.1, h.2.2⟩
      have := h.1 k
      simpa using this
    | some k0 =>
      have hget' : ∀ k, dictGet (dictSet acc k0 b.getText) k =
          ((ts ++ [b.getText]).filter (fun t => classifyExample t == some k)).getLast? := by
        intro k
        rw [dictGet_dictSet, List.filter_append]
        by_cases hk : k = k0
        · subst hk
          have hone : [b.getText].filter (fun t => classifyExample t == some k) = [b.getText] := by
            simp [hcl]
          rw [hone, if_pos rfl, List.getLast?_concat]
        · have hone : [b.getText].filter (fun t => classifyExample t == some k) = [] := by
            simp [hcl, show ¬ (k0 = k) from fun hh => hk hh.symm]
          rw [hone, List.append_nil, if_neg hk]
          exact hget k
      have hnodup' : ((dictSet acc k0 b.getText).map Prod.fst).Nodup := by
        rw [dictSet_keys]
        by_cases hk0 : k0 ∈ acc.map Prod.fst
        · rw [if_pos hk0]
          exact hnodup
        · rw [if_neg hk0]
          simp [List.nodup_append, hnodup, hk0]
      have hrange' : ∀ k, k ∈ (dictSet acc k0 b.getText).map Prod.fst →
          k ∈ ["curl", "python", "javascript", "bash"] := by
        intro k hk
        rw [dictSet_keys] at hk
        by_cases hk0 : k0 ∈ acc.map Prod.fst
        · rw [if_pos hk0] at hk
          exact hrange k hk
        · rw [if_neg hk0] at hk
          rcases List.mem_append.mp hk with hk | hk
          · exact hrange k hk
          · have hk0eq : k = k0 := by simpa using hk
            subst hk0eq
            rcases classifyExample_range _ _ hcl with h | h | h | h <;> simp [h]
      have h := ih (dictSet acc k0 b.getText) (ts ++ [b.getText]) hget' hnodup' hrange'
      refine ⟨fun k => ?_, h.2.1, h.2.2⟩
      have := h.1 k
      simpa using this

/-- C10: the mobile code-example extractor produces at most one sample per
category: the dict keys are duplicate-free and drawn from `curl`, `python`,
`javascript`, `bash`; and the stored sample for a category is the text of
the LAST code element classified into it (later blocks overwrite earlier
ones), blocks matching no keyword contributing nothing. -/
theorem code_examples_one_per_category (html : String) :
    ((extract_code_examples html).map Prod.fst).Nodup ∧
    (((extract_code_examples html).map Prod.fst).all
      (fun k => ["curl", "python", "javascript", "bash"].contains k)) = true ∧
    (∀ k, dictGet (extract_code_examples html) k =
      (((Html.findAll (fun e => e.tag == "code") (parseHtml html)).map Elem.getText).filter
        (fun t => classifyExample t == some k)).getLast?) := by
  have h := examples_fold_invariant (Html.findAll (fun e => e.tag == "code") (parseHtml html))
    [] [] (fun k => by simp [dictGet]) (by simp) (fun k hk => by simp at hk)
  refine ⟨h.2.1, ?_, ?_⟩
  · rw [List.all_eq_true]
    intro k hk
    have := h.2.2 k hk
    simpa using this
  · intro k
    have := h.1 k
    simpa using this

theorem findAll_pred (p : Elem → Bool) : ∀ (doc : Html) (e : Elem),
    e ∈ doc.findAll p → p e = true := by
  intro doc
  induction doc with
  | nil => intro e h; simp [Html.findAll] at h
  | text s rest ih => intro e h; rw [Html.findAll] at h; exact ih e h
  | elem t a children rest ihc ihr =>
    intro e h
    rw [Html.findAll] at h
    rcases List.mem_append.mp h with h | h
    · rcases List.mem_append.mp h with h | h
      · by_cases hp : p ⟨t, a, children⟩ = true
        · rw [if_pos hp] at h
          simp at h
          rw [h]
          exact hp
        · rw [if_neg hp] at h
          simp at h
      · exact ihc e h
    · exact ihr e h

theorem foldlM_except_ok {α β : Type} (f : β → α → β) (g : β → α → Except String β) :
    ∀ (l : List α), (∀ b, ∀ a ∈ l, g b a = .ok (f b a)) →
      ∀ b, l.foldlM g b = .ok (l.foldl f b) := by
  intro l
  induction l with
  | nil => intro _ b; rfl
  | cons x xs ih =>
    intro h b
    rw [List.foldlM_cons, h b x (List.mem_cons_self x xs)]
    exact ih (fun b a ha => h b a (List.mem_cons_of_mem x ha)) (f b x)

theorem headerLevelE_eq (tag : String) (h : tag ∈ headerTags) :
    headerLevelE tag = .ok (headerLevel tag) := by
  rw [headerTags] at h
  simp only [List.mem_cons, List.not_mem_nil, or_false] at h
  rcases h with h | h | h | h | h | h <;> rw [h] <;> rfl

/-- C4: no extraction operation raises: each `Except`-threaded body returns
`ok` with the value of the plain embedding, for every input string and
selector — `extract_model_info` guards its `paragraphs[0]`, the parameter,
code-example, code-block and text bodies contain only total operations,
`extract_tables` guards its `rows[0]`, and `extract_headers` indexes and
converts only tag names delivered by the `h1..h6` filter.  In the worst
case every field is empty. -/
theorem extractors_never_raise (html : String) (selector : Option String) :
    extract_model_infoE html = .ok (extract_model_info html) ∧
    extract_api_parametersE html = .ok (extract_api_parameters html) ∧
    extract_code_examplesE html = .ok (extract_code_examples html) ∧
    extract_code_blocksE html = .ok (extract_code_blocks html) ∧
    extract_tablesE html = .ok (extract_tables html) ∧
    extract_textE html selector = .ok (extract_text html selector) ∧
    extract_headersE html = .ok (extract_headers html) := by
  refine ⟨?_, rfl, rfl, rfl, ?_, rfl, ?_⟩
  · simp only [extract_model_infoE, extract_model_info]
    cases hp : Html.findAll (fun e => e.tag == "p") (parseHtml html) with
    | nil => rfl
    | cons p rest => rfl
  · unfold extract_tablesE extract_tables
    apply foldlM_except_ok
    intro b table _
    simp only []
    cases hr : (Html.findAll (fun e => e.tag == "tr") table.children).foldl
        (fun rows tr =>
          let cells := (Html.findAll (fun e => e.tag == "td" || e.tag == "th")
              tr.children).map (fun td => pyStrip td.getText)
          if cells.isEmpty then rows else rows ++ [cells]) [] with
    | nil => rfl
    | cons h t => cases t with
      | nil => rfl
      | cons x xs =>
        have hlen : (h :: x :: xs).length > 1 := by
          simp only [List.length_cons]
          omega
        rw [if_pos hlen]
        rfl
  · unfold extract_headersE extract_headers
    apply foldlM_except_ok
    intro b header hm
    have hp := findAll_pred _ _ _ hm
    have htag : header.tag ∈ headerTags := by simpa using hp
    rw [show (do
        let level ← headerLevelE header.tag
        let text := pyStrip header.getText
        if text = "" then pure b
        else pure (b ++ [(level, text)]) : Except String (List (Nat × String))) =
      (headerLevelE header.tag >>= fun level =>
        if pyStrip header.getText = "" then pure b
        else pure (b ++ [(level, pyStrip header.getText)])) from rfl]
    rw [headerLevelE_eq header.tag htag]
    show (if pyStrip header.getText = "" then (pure b : Except String _)
      else pure (b ++ [(headerLevel header.tag, pyStrip header.getText)])) = _
    by_cases ht : pyStrip header.getText = ""
    · rw [if_pos ht, if_pos ht]
      rfl
    · rw [if_neg ht, if_neg ht]
      rfl

/-- C6 counterexample: at a concrete record (model `gpt-4o`, its resolved
URL, empty page) and concrete clock readings, the rich-mode renderer
produces no output text at all: evaluating its template raises `NameError`
at the un-escaped interpolation field `{attempt + 1}` (source line 503),
so no call yields byte-identical output text and rendering does not merely
produce text.  (The generic renderer `format_markdown` is covered by the
amended theorem.) -/
theorem generate_context_md_raises_counterexample :
    generate_context_mdE "/sdcard/AIML_API_Docs" "gpt-4o"
      "https://docs.aimlapi.com/api-references/text-models-llm/openai/gpt-4o" ""
      "2025-12-10 00:00:00" "2025-12-10 00:00:01" =
      .error "NameError: name \x27attempt\x27 is not defined" := rfl

/-- C6 amended: generic-mode rendering (`format_markdown`) reads no ambient
state — in particular not the clock — so two renders of an identical record
produce byte-identical output; rich-mode rendering
(`generate_context_md`) never produces output text: for every input and
every clock reading, evaluating its template raises
`NameError: name 'attempt' is not defined` (the template's retry-strategy
example contains the three un-escaped interpolation fields `{attempt + 1}`,
`{max_retries}` and `{wait:.2f}`), and on success it would moreover have
embedded the render-time clock readings and written its output file. -/
theorem render_modes_amended :
    (∀ output_dir model_name model_url html now1 now2,
      generate_context_mdE output_dir model_name model_url html now1 now2 =
        .error "NameError: name \x27attempt\x27 is not defined") ∧
    (∀ data title now1 now2,
      format_markdown_at data title now1 = format_markdown_at data title now2) := by
  constructor
  · intro output_dir model_name model_url html now1 now2
    rfl
  · intro data title now1 now2
    rfl
